import Mathlib

/-!
Verification of the log ingestion, classification and aggregation pipeline of
sebak-hot-body (src/cmd/result.go).

Shallow embedding notes:
- JSON values decoded through Go's generic `map[string]interface{}` are
  modelled by the inductive `Json`; a Go JSON object is an association list
  of fields.  A line that is not valid JSON is modelled as `Option.none`
  (the "parsed line" input of `loadLine`).
- Go runtime panics from failed type assertions (`x.(string)`,
  `x.(map[string]interface{})`, `x.(float64)`) are modelled as explicit
  `panicked` outcomes; they abort the process with a non-zero exit status
  and no report.
- `printError` (cmd package, not under src/) is modelled from the spec as a
  fatal abort: diagnostic output, non-zero exit status, no report.
- The `hotbody` record types (package hotbody, not under src/) are modelled
  from the spec (section 3 and 6): every record exposes Type, Time, Elapsed
  (nanoseconds, nonnegative), an optional Error value and an ErrorType;
  `RecordSEBAKError` additionally carries the raw, type-erased error
  document.  Decoding follows Go `encoding/json` conventions: missing
  fields keep their zero value, type mismatches are decode errors.
- Machine floats appear in the source only in arithmetic whose inputs are
  integers that are exactly representable in float64 in the relevant range
  (elapsed nanoseconds, the constant step 50000000000, counts); the
  embedding uses exact integer / rational arithmetic for them.  The float
  division by zero that Go maps to a non-finite value (Inf/NaN) is modelled
  by `Option.none`.
-/

namespace HotBody

/-- A JSON value, the model of Go's generic `interface{}` JSON decoding:
objects become association lists of string keys.  JSON numbers all decode to
Go `float64`; the values occurring in hot-body logs are integers, modelled
exactly as `Int`. -/
inductive Json where
| null : Json
| bool (b : Bool) : Json
| num (n : Int) : Json
| str (s : String) : Json
| obj (fields : List (String × Json)) : Json

/-- Go map lookup `d[k]` on a decoded JSON object (first matching key). -/
def jlookup (fields : List (String × Json)) (k : String) : Option Json :=
  (fields.find? (fun p => p.1 == k)).map (fun p => p.2)

/-- Modelled from the spec: the part of `hotbody.HotterConfig` the result
pipeline reads for computation (`config.Operations`); the remaining config
fields are only echoed into report labels. -/
structure HotterConfig where
  operations : Int

/-- Modelled from the spec: the capability contract of a `hotbody.Record`
variant: timestamp, elapsed duration in nanoseconds (spec invariant:
always nonnegative), optional error value, error type. -/
structure RecordFields where
  time : Int
  elapsed : Nat
  error : Option Json
  errorType : String

/-- Modelled from the spec: the polymorphic record model over the variants
`{Config, CreateAccounts, Payment, SEBAKError}`; `SEBAKError` additionally
carries the raw, type-erased error document. -/
inductive Record where
| config (c : HotterConfig) : Record
| createAccounts (f : RecordFields) : Record
| payment (f : RecordFields) : Record
| sebakError (f : RecordFields) (rawError : List (String × Json)) : Record

/-- Modelled from the spec: the `Type` discriminator exposed by every
record variant. -/
def Record.GetType : Record → String
| .config _ => "config"
| .createAccounts _ => "create-accounts"
| .payment _ => "payment"
| .sebakError _ _ => "sebak-error"

/-- Modelled from the spec: the elapsed duration exposed by a record
(zero for the untimed config record). -/
def Record.GetElapsed : Record → Nat
| .config _ => 0
| .createAccounts f => f.elapsed
| .payment f => f.elapsed
| .sebakError f _ => f.elapsed

/-- Modelled from the spec: the optional error value of a record
(`Option.none` models a Go nil error). -/
def Record.GetError : Record → Option Json
| .config _ => Option.none
| .createAccounts f => f.error
| .payment f => f.error
| .sebakError f _ => f.error

/-- Modelled from the spec: the error type string of a record. -/
def Record.GetErrorType : Record → String
| .config _ => ""
| .createAccounts f => f.errorType
| .payment f => f.errorType
| .sebakError f _ => f.errorType

/-- Modelled from the spec: the timestamp of a record. -/
def Record.GetTime : Record → Int
| .config _ => 0
| .createAccounts f => f.time
| .payment f => f.time
| .sebakError f _ => f.time

/-- Modelled from the spec: the raw, type-erased error document of a
`sebak-error` record. -/
def Record.GetRawError : Record → List (String × Json)
| .sebakError _ raw => raw
| _ => []

/-- Modelled from the spec: decoding of a record's `time` field following
Go `encoding/json` conventions: a missing or null field keeps the zero
value, a string is parsed by the supplied ISO-8601 parser (failure is a
decode error), any other shape is a decode error. -/
def decodeTime (pI : String → Option Int) (d : List (String × Json)) : Option Int :=
  match jlookup d "time" with
  | Option.none => some 0
  | some Json.null => some 0
  | some (Json.str s) => pI s
  | some _ => Option.none

/-- Modelled from the spec: decoding of a record's `elapsed` field
(nanosecond integer, spec invariant: nonnegative). -/
def decodeElapsed (d : List (String × Json)) : Option Nat :=
  match jlookup d "elapsed" with
  | Option.none => some 0
  | some Json.null => some 0
  | some (Json.num n) => if 0 ≤ n then some n.toNat else Option.none
  | some _ => Option.none

/-- Modelled from the spec: decoding of a record's optional `error` field;
a missing or null field is a Go nil error. -/
def decodeError (d : List (String × Json)) : Option Json :=
  match jlookup d "error" with
  | Option.none => Option.none
  | some Json.null => Option.none
  | some v => some v

/-- Modelled from the spec: decoding of a record's `errorType` field. -/
def decodeErrorType (d : List (String × Json)) : Option String :=
  match jlookup d "errorType" with
  | Option.none => some ""
  | some Json.null => some ""
  | some (Json.str s) => some s
  | some _ => Option.none

/-- Modelled from the spec: strict decode of a data line into the common
record fields. -/
def decodeFields (pI : String → Option Int) (d : List (String × Json)) :
    Option RecordFields :=
  match decodeTime pI d, decodeElapsed d, decodeErrorType d with
  | some t, some e, some et =>
      some { time := t, elapsed := e, error := decodeError d, errorType := et }
  | _, _, _ => Option.none

/-- Modelled from the spec: strict decode of a `sebak-error` line; the raw
error document is the type-erased JSON object under `error` (a missing or
null field leaves an empty document, a non-object field is a decode
error). -/
def decodeSebak (pI : String → Option Int) (d : List (String × Json)) :
    Option (RecordFields × List (String × Json)) :=
  match decodeFields pI d with
  | Option.none => Option.none
  | some f =>
    match jlookup d "error" with
    | Option.none => some (f, [])
    | some Json.null => some (f, [])
    | some (Json.obj fs) => some (f, fs)
    | some _ => Option.none

/-- Modelled from the spec: `json.Marshal(d["config"])` followed by a
decode into `hotbody.HotterConfig`.  A missing `config` key marshals to
JSON null, which unmarshals into the zero config; a non-numeric
`operations` field is a decode error; a missing one keeps the zero
value. -/
def decodeConfig (v : Option Json) : Option HotterConfig :=
  match v with
  | Option.none => some { operations := 0 }
  | some Json.null => some { operations := 0 }
  | some (Json.obj cf) =>
    match jlookup cf "operations" with
    | Option.none => some { operations := 0 }
    | some (Json.num n) => some { operations := n }
    | some _ => Option.none
  | some _ => Option.none

/-- Outcome of `loadLine` (src/cmd/result.go lines 70-127): a decode error,
a Go runtime panic from a failed type assertion, or success carrying an
optional record (`started`/`ended` control lines yield a nil record). -/
inductive Loaded where
| ok (r : Option Record) : Loaded
| err : Loaded
| panicked : Loaded

/-- The assignment `loadLine` performs on the package-level run boundary
variables `started`/`ended`. -/
inductive BoundaryUpdate where
| keep : BoundaryUpdate
| setStarted (t : Int) : BoundaryUpdate
| setEnded (t : Int) : BoundaryUpdate

/-- The package-level run boundary variables of src/cmd/result.go
(`started`, `ended`); the Go zero time is modelled as 0. -/
structure Boundaries where
  started : Int
  ended : Int

/-- Applying a boundary assignment. -/
def applyUpdate (b : Boundaries) : BoundaryUpdate → Boundaries
| .keep => b
| .setStarted t => { b with started := t }
| .setEnded t => { b with ended := t }

/-- Embedding of `loadLine` (src/cmd/result.go lines 70-127).  The input is
the generic JSON parse of one text line (`Option.none` when
`json.Unmarshal` fails).  `pI` is `common.ParseISO8601`; per the Go
`time.Parse` contract a parse failure returns the zero time, and the source
discards the parse error (`started, _ = ...`), so the assigned value is
`(pI s).getD 0`.  A `type` field that is not a string, and a missing or
non-string `time` field on a `started`/`ended` line, hit failed type
assertions (`d["type"].(string)`, `d["time"].(string)`) and panic. -/
def loadLine (pI : String → Option Int) (line : Option Json) :
    Loaded × BoundaryUpdate :=
  match line with
  | Option.none => (.err, .keep)
  | some (Json.obj d) =>
    match jlookup d "type" with
    | Option.none => (.err, .keep)
    | some (Json.str recordType) =>
      if recordType = "started" then
        match jlookup d "time" with
        | some (Json.str s) => (.ok Option.none, .setStarted ((pI s).getD 0))
        | _ => (.panicked, .keep)
      else if recordType = "ended" then
        match jlookup d "time" with
        | some (Json.str s) => (.ok Option.none, .setEnded ((pI s).getD 0))
        | _ => (.panicked, .keep)
      else if recordType = "config" then
        match decodeConfig (jlookup d "config") with
        | some c => (.ok (some (.config c)), .keep)
        | Option.none => (.err, .keep)
      else if recordType = "create-accounts" then
        match decodeFields pI d with
        | some f => (.ok (some (.createAccounts f)), .keep)
        | Option.none => (.err, .keep)
      else if recordType = "payment" then
        match decodeFields pI d with
        | some f => (.ok (some (.payment f)), .keep)
        | Option.none => (.err, .keep)
      else if recordType = "sebak-error" then
        match decodeSebak pI d with
        | some fr => (.ok (some (.sebakError fr.1 fr.2)), .keep)
        | Option.none => (.err, .keep)
      else (.err, .keep)
    | some _ => (.panicked, .keep)
  | some _ => (.err, .keep)

/-- Outcome of the nested error-code extraction performed on a
`sebak-error` record inside the scan loop (src/cmd/result.go lines
162-176). -/
inductive Extract where
| noCode : Extract
| code (c : Int) : Extract
| panicked : Extract

/-- Embedding of the nested error-code extraction (src/cmd/result.go lines
162-176).  `pJ` is the generic JSON parse used for the doubly-encoded
`data.body` string; `json.Unmarshal`'s error is discarded, so a failed or
non-object parse leaves `body` as the nil map.  The type assertions
`e["data"].(map[string]interface{})`, `[...]["body"].(string)` and
`body["code"].(float64)` panic when the value has another shape (a missing
`body` key yields a nil `interface{}`, whose string assertion panics). -/
def extractNestedCode (pJ : String → Option Json) (e : List (String × Json)) :
    Extract :=
  match jlookup e "data" with
  | Option.none => .noCode
  | some (Json.obj dm) =>
    match jlookup dm "body" with
    | some (Json.str j) =>
      let body : List (String × Json) :=
        match pJ j with
        | some (Json.obj fs) => fs
        | _ => []
      match jlookup body "code" with
      | Option.none => .noCode
      | some (Json.num n) => .code n
      | some _ => .panicked
    | _ => .panicked
  | some _ => .panicked

/-- State threaded through the scan loop of `runResult` (src/cmd/result.go
lines 151-182): the retained payment records and the nested sebak error
code counts.  Go maps carry no observable order; the model fixes
first-insertion order in the association lists. -/
structure LoopState where
  records : List Record
  sebakErrors : List (Int × Nat)

/-- Go map increment `m[k]++` on an association list. -/
def bump {α : Type} [BEq α] (m : List (α × Nat)) (k : α) : List (α × Nat) :=
  if m.any (fun p => p.1 == k) then
    m.map (fun p => if p.1 == k then (p.1, p.2 + 1) else p)
  else m ++ [(k, 1)]

/-- Go map lookup `m[k]` on an association list of counters
(`Option.none` when the key is absent). -/
def lookupCount {α : Type} [BEq α] (m : List (α × Nat)) (k : α) : Option Nat :=
  (m.find? (fun p => p.1 == k)).map (fun p => p.2)

/-- Outcome of one iteration of the scan loop on a successfully loaded
record. -/
inductive Stepped where
| ok (st : LoopState) : Stepped
| panicked : Stepped

/-- Embedding of the scan loop body of `runResult` on one loaded record
(src/cmd/result.go lines 161-181): a non-payment record is not retained;
if it is a `sebak-error` record, the nested code extraction runs and a
successfully extracted code bumps `sebakErrors`; a payment record is
appended to `records`. -/
def processRecord (pJ : String → Option Json) (r : Record) (st : LoopState) :
    Stepped :=
  if r.GetType ≠ "payment" then
    match r with
    | .sebakError _ raw =>
      match extractNestedCode pJ raw with
      | .noCode => .ok st
      | .code c => .ok { st with sebakErrors := bump st.sebakErrors c }
      | .panicked => .panicked
    | _ => .ok st
  else .ok { st with records := st.records ++ [r] }

/-- The histogram bucket width hardcoded at src/cmd/result.go line 196:
50000000000 nanoseconds (50 seconds). -/
def step : Nat := 50000000000

/-- Statistics computed by the aggregation loop over the retained payment
records (src/cmd/result.go lines 194-219).  `minElapsed` uses the source's
-1 sentinel for "unset", modelled as `Option.none`. -/
structure Stats where
  els : List (Nat × Nat)
  countError : Nat
  errorTypes : List (String × Nat)
  maxElapsed : Nat
  minElapsed : Option Nat

/-- One iteration of the aggregation loop (src/cmd/result.go lines
201-219): bucket the elapsed time (`int(es/step) * int(step)`, floor
division for nonnegative elapsed), update max/min, and count the error and
its type when the record carries one. -/
def statsStep (s : Stats) (r : Record) : Stats :=
  let es := r.GetElapsed
  let i := es / step * step
  let els := bump s.els i
  let maxE := max s.maxElapsed es
  let minE := match s.minElapsed with
    | Option.none => some es
    | some m => some (min m es)
  if (r.GetError).isNone then
    { s with els := els, maxElapsed := maxE, minElapsed := minE }
  else
    { els := els, maxElapsed := maxE, minElapsed := minE,
      countError := s.countError + 1,
      errorTypes := bump s.errorTypes r.GetErrorType }

/-- The aggregation loop over all retained payment records. -/
def computeStats (records : List Record) : Stats :=
  records.foldl statsStep
    { els := [], countError := 0, errorTypes := [], maxElapsed := 0,
      minElapsed := Option.none }

/-- Embedding of the bucket-fill loop
`for i := 0; i < ((maxElapsedTime/step)*step)+step; i += step`
(src/cmd/result.go lines 221-227), which both zero-fills absent buckets
and collects the bucket key list.  Over exact arithmetic
`(maxElapsedTime/step)*step` is `maxElapsedTime` itself (the `/` here is
Go float64 division, not integer division), so the loop visits every
multiple of `step` below `maxElapsedTime + step`.  The `fuel` argument
only bounds the iteration count (`bound / step + 1` iterations always
suffice); the loop exits through the `i < bound` test. -/
def fillLoop : Nat → Nat → Nat → List Nat
| 0, _, _ => []
| fuel + 1, i, bound =>
  if i < bound then i :: fillLoop fuel (i + step) bound else []

/-- The bucket keys visited by the fill loop: every multiple of `step`
strictly below `bound = maxElapsedTime + step`, in ascending order (the
subsequent `sort.Sort(elsKeys)` of the source is the identity on this
list). -/
def fillKeys (bound : Nat) : List Nat :=
  fillLoop (bound / step + 1) 0 bound

/-- Zero-filling of absent buckets (src/cmd/result.go lines 222-225):
`if _, ok := els[i]; !ok { els[i] = 0 }` for each visited key. -/
def fillEls (els : List (Nat × Nat)) (keys : List Nat) : List (Nat × Nat) :=
  keys.foldl
    (fun m k => if m.any (fun p => p.1 == k) then m else m ++ [(k, 0)]) els

/-- `lastTime.Sub(started).Seconds()` (src/cmd/result.go line 324) over
exact rationals: the timestamp difference in nanoseconds divided by 1e9. -/
def totalSecondsQ (lastTime started : Int) : ℚ :=
  ((lastTime - started : Int) : ℚ) / 1000000000

/-- Go float64 division, with the division by exact zero (which Go maps to
a non-finite Inf/NaN value) modelled as `Option.none`. -/
def goDivQ (a b : ℚ) : Option ℚ :=
  if b = 0 then Option.none else some (a / b)

/-- The expected-OPS and real-OPS computations (src/cmd/result.go lines
324-329):
`float64(len(records)*config.Operations) / totalSeconds` and
`float64((len(records)-countError)*config.Operations) / totalSeconds`,
performed unconditionally. -/
def reportOPS (cfgOps : Int) (n countErr : Nat) (lastTime started : Int) :
    Option ℚ × Option ℚ :=
  let tot := totalSecondsQ lastTime started
  (goDivQ (((n : Int) * cfgOps : Int) : ℚ) tot,
   goDivQ ((((n : Int) - (countErr : Int)) * cfgOps : Int) : ℚ) tot)

/-- Terminal outcome of `runResult` (src/cmd/result.go lines 129-399):
`fatal` is the `printError` abort on a decode error (diagnostic, non-zero
exit, no report); `panicked` is a Go runtime panic (non-zero exit, no
report); `noRecords` prints "no records found" and exits with status 1
before any report row is built; `report` renders the table and exits with
status 0, carrying the final loop state, the aggregated statistics, the
zero-filled histogram, the bucket key list and the expected/real OPS
values. -/
inductive RunOutcome where
| fatal : RunOutcome
| panicked : RunOutcome
| noRecords : RunOutcome
| report (st : LoopState) (stats : Stats) (els : List (Nat × Nat))
    (keys : List Nat) (ops : Option ℚ × Option ℚ) : RunOutcome

/-- The scan loop of `runResult` (src/cmd/result.go lines 153-182) over the
remaining lines: each line is loaded, a decode error aborts through
`printError`, a nil record (control line) is skipped after its boundary
assignment, and any other record goes through `processRecord`. -/
def runLoop (pI : String → Option Int) (pJ : String → Option Json) :
    List (Option Json) → Boundaries → LoopState →
    Except RunOutcome (Boundaries × LoopState)
| [], b, st => .ok (b, st)
| l :: rest, b, st =>
  match loadLine pI l with
  | (.err, _) => .error .fatal
  | (.panicked, _) => .error .panicked
  | (.ok Option.none, u) => runLoop pI pJ rest (applyUpdate b u) st
  | (.ok (some r), u) =>
    match processRecord pJ r st with
    | .ok st' => runLoop pI pJ rest (applyUpdate b u) st'
    | .panicked => .error .panicked

/-- Embedding of `runResult` (src/cmd/result.go lines 129-399).  The input
is the generic JSON parse of each input line (an empty input yields the
empty line `""`, which fails the generic parse, modelled by reading the
head as `Option.none`).  The head line must load; a load error aborts
through `printError`, and the type assertion
`config = record.(hotbody.HotterConfig)` panics whenever the loaded head
record is not a config record (including the nil record of a control
line).  After the scan loop, an empty payment list prints
"no records found" and exits with status 1; otherwise the statistics,
the zero-filled histogram and the OPS values are computed and the report
is rendered with exit status 0. -/
def runResult (pI : String → Option Int) (pJ : String → Option Json)
    (lines : List (Option Json)) : RunOutcome :=
  match loadLine pI (lines.head?.getD Option.none) with
  | (.err, _) => .fatal
  | (.panicked, _) => .panicked
  | (.ok r, u) =>
    match r with
    | some (.config cfg) =>
      match runLoop pI pJ lines.tail (applyUpdate ⟨0, 0⟩ u) ⟨[], []⟩ with
      | .error o => o
      | .ok (b, st) =>
        if st.records.length < 1 then .noRecords
        else
          let stats := computeStats st.records
          let keys := fillKeys (stats.maxElapsed + step)
          let els := fillEls stats.els keys
          let lastTime := ((st.records.getLast?).map Record.GetTime).getD 0
          .report st stats els keys
            (reportOPS cfg.operations st.records.length stats.countError
              lastTime b.started)
    | _ => .panicked

/-- Projection: the aggregated statistics of a rendered report. -/
def RunOutcome.statsOf : RunOutcome → Option Stats
| .report _ stats _ _ _ => some stats
| _ => Option.none

/-- Projection: the total retained record count of a rendered report. -/
def RunOutcome.recordCountOf : RunOutcome → Option Nat
| .report st _ _ _ _ => some st.records.length
| _ => Option.none

/-- Projection: the zero-filled histogram of a rendered report. -/
def RunOutcome.elsOf : RunOutcome → Option (List (Nat × Nat))
| .report _ _ els _ _ => some els
| _ => Option.none

/-- Projection: the bucket key list of a rendered report. -/
def RunOutcome.keysOf : RunOutcome → Option (List Nat)
| .report _ _ _ keys _ => some keys
| _ => Option.none

/-- Projection: the expected/real OPS pair of a rendered report. -/
def RunOutcome.opsOf : RunOutcome → Option (Option ℚ × Option ℚ)
| .report _ _ _ _ ops => some ops
| _ => Option.none

/-- Whether a load outcome is a successfully decoded config record (the
only head-line outcome on which `runResult` proceeds without aborting). -/
def isConfigLoad : Loaded → Bool
| .ok (some (.config _)) => true
| _ => false

/-- The `data.body` string of a raw error document, when the document has
a `data` key holding an object with a string `body` field: exactly the
shape on which the extractor reaches its secondary JSON parse instead of
panicking. -/
def dataBodyString (raw : List (String × Json)) : Option String :=
  match jlookup raw "data" with
  | some (Json.obj dm) =>
    match jlookup dm "body" with
    | some (Json.str s) => some s
    | _ => Option.none
  | _ => Option.none

/-- A line that loads successfully, is not a payment record, and whose
processing by the scan loop cannot hit the nested-extraction panic. -/
def lineSafeNonPayment (pI : String → Option Int) (pJ : String → Option Json)
    (l : Option Json) : Bool :=
  match loadLine pI l with
  | (.ok Option.none, _) => true
  | (.ok (some r), _) =>
    if r.GetType = "payment" then false
    else
      match r with
      | .sebakError _ raw =>
        match extractNestedCode pJ raw with
        | .panicked => false
        | _ => true
      | _ => true
  | (_, _) => false

/-! Concrete inputs used by counterexamples and witnesses.  Each line is
given as the generic JSON parse of one log line. -/

/-- A concrete ISO-8601 parser fragment covering the timestamps used in
the concrete scenarios. -/
def pIA : String → Option Int := fun s =>
  if s = "2019-01-01T00:00:00Z" then some 1546300800000000000
  else if s = "2019-01-01T00:10:00Z" then some 1546301400000000000
  else Option.none

/-- A secondary JSON parser that accepts nothing (no concrete scenario
below carries an embedded `data.body` document). -/
def pJ0 : String → Option Json := fun _ => Option.none

/-- Log line: a config record with `operations = 2`. -/
def configLine : Option Json :=
  some (.obj [("type", .str "config"),
              ("config", .obj [("operations", .num 2)])])

/-- Log line: the `started` control event. -/
def startedLine : Option Json :=
  some (.obj [("type", .str "started"),
              ("time", .str "2019-01-01T00:00:00Z")])

/-- Log line: the `ended` control event. -/
def endedLine : Option Json :=
  some (.obj [("type", .str "ended"),
              ("time", .str "2019-01-01T00:10:00Z")])

/-- Log line: an error-free payment record with the given elapsed time. -/
def paymentLine (e : Int) : Option Json :=
  some (.obj [("type", .str "payment"), ("elapsed", .num e)])

/-- Scenario A of the spec: a config line with `operations = 2`, the
`started` control line, three error-free payments with elapsed 10e9, 60e9
and 120e9 nanoseconds, and the `ended` control line (the config line comes
first, as `runResult` requires of its head line). -/
def scenarioA : List (Option Json) :=
  [configLine, startedLine, paymentLine 10000000000,
   paymentLine 60000000000, paymentLine 120000000000, endedLine]

/-- Log line: a create-accounts record carrying an error of type
`timeout`. -/
def caErrLine : Option Json :=
  some (.obj [("type", .str "create-accounts"), ("errorType", .str "timeout"),
              ("error", .obj [("message", .str "x")])])

/-- Log line: a sebak-error record whose raw error document has a `data`
key holding an object without a `body` field. -/
def sebakNoBodyLine : Option Json :=
  some (.obj [("type", .str "sebak-error"),
              ("error", .obj [("data", .obj [])])])

/-- Record fields with no error, used by concrete scenarios. -/
def f0 : RecordFields :=
  { time := 0, elapsed := 0, error := Option.none, errorType := "" }

/-- Record fields carrying an error of type `timeout`, used by concrete
scenarios. -/
def fErr : RecordFields :=
  { time := 0, elapsed := 0, error := some (.str "e"), errorType := "timeout" }

/-- The record fields `caErrLine` decodes to. -/
def fErrCA : RecordFields :=
  { time := 0, elapsed := 0, error := some (.obj [("message", .str "x")]),
    errorType := "timeout" }

/-- The empty scan-loop state. -/
def st0 : LoopState := { records := [], sebakErrors := [] }

/-- The initial aggregation state (src/cmd/result.go lines 194-200). -/
def emptyStats : Stats :=
  { els := [], countError := 0, errorTypes := [], maxElapsed := 0,
    minElapsed := Option.none }

/-- A secondary JSON parser fragment mapping the body text `nocode` to an
embedded JSON object without a `code` field. -/
def pJC : String → Option Json := fun s =>
  if s = "nocode" then some (.obj []) else Option.none

/-! Helper lemmas shared between the claim theorems. -/

/-- Lookup in the empty document. -/
theorem jlookup_nil (k : String) : jlookup [] k = Option.none := rfl

/-- The scan loop body retains exactly the payment records: a processed
record extends the retained list with itself when it is a payment and
leaves the list unchanged otherwise. -/
theorem processRecord_ok_records (pJ : String → Option Json) (r : Record)
    (st st' : LoopState) (h : processRecord pJ r st = .ok st') :
    st'.records = st.records ++ (if r.GetType = "payment" then [r] else []) := by
  cases r with
  | config c =>
    simp [processRecord, Record.GetType] at h
    simp [Record.GetType, ← h]
  | createAccounts f =>
    simp [processRecord, Record.GetType] at h
    simp [Record.GetType, ← h]
  | payment f =>
    simp [processRecord, Record.GetType] at h
    simp [Record.GetType, ← h]
  | sebakError f raw =>
    rcases hx : extractNestedCode pJ raw with _ | c | _ <;>
      simp [processRecord, Record.GetType, hx] at h <;>
      simp [Record.GetType, ← h]

/-! C1. -/

/-- C1: for every ingested sebak-error record, nested-code extraction is
best-effort: if the raw error map has no `data` key, or if `data.body` is
not valid JSON, or if the embedded JSON has no `code` field, ingestion
does not abort (no error, no panic) and the loop state — in particular
`sebakErrors` — is unchanged; moreover a code is recorded only when every
step (data key, object shape, string body, JSON parse, numeric code)
succeeds. -/
theorem c1_nested_extraction_best_effort (pJ : String → Option Json)
    (f : RecordFields) (raw : List (String × Json)) (st : LoopState)
    (h : jlookup raw "data" = Option.none
      ∨ (∃ s, dataBodyString raw = some s ∧ pJ s = Option.none)
      ∨ (∃ s fs, dataBodyString raw = some s ∧ pJ s = some (Json.obj fs)
          ∧ jlookup fs "code" = Option.none)) :
    processRecord pJ (.sebakError f raw) st = .ok st
    ∧ (∀ c, extractNestedCode pJ raw = .code c →
        ∃ dm s fs, jlookup raw "data" = some (Json.obj dm)
          ∧ jlookup dm "body" = some (Json.str s)
          ∧ pJ s = some (Json.obj fs)
          ∧ jlookup fs "code" = some (Json.num c)) := by
  constructor
  · have hnc : extractNestedCode pJ raw = .noCode := by
      rcases h with hA | ⟨s, hd, hp⟩ | ⟨s, fs, hd, hp, hcode⟩
      · unfold extractNestedCode
        rw [hA]
      · rcases hjd : jlookup raw "data" with _ | v
        · simp [dataBodyString, hjd] at hd
        · cases v with
          | obj dm =>
            rcases hjb : jlookup dm "body" with _ | w
            · simp [dataBodyString, hjd, hjb] at hd
            · cases w with
              | str s' =>
                simp [dataBodyString, hjd, hjb] at hd
                subst hd
                simp [extractNestedCode, hjd, hjb, hp, jlookup_nil]
              | null => simp [dataBodyString, hjd, hjb] at hd
              | bool b => simp [dataBodyString, hjd, hjb] at hd
              | num n => simp [dataBodyString, hjd, hjb] at hd
              | obj o => simp [dataBodyString, hjd, hjb] at hd
          | null => simp [dataBodyString, hjd] at hd
          | bool b => simp [dataBodyString, hjd] at hd
          | num n => simp [dataBodyString, hjd] at hd
          | str t => simp [dataBodyString, hjd] at hd
      · rcases hjd : jlookup raw "data" with _ | v
        · simp [dataBodyString, hjd] at hd
        · cases v with
          | obj dm =>
            rcases hjb : jlookup dm "body" with _ | w
            · simp [dataBodyString, hjd, hjb] at hd
            · cases w with
              | str s' =>
                simp [dataBodyString, hjd, hjb] at hd
                subst hd
                simp [extractNestedCode, hjd, hjb, hp, hcode]
              | null => simp [dataBodyString, hjd, hjb] at hd
              | bool b => simp [dataBodyString, hjd, hjb] at hd
              | num n => simp [dataBodyString, hjd, hjb] at hd
              | obj o => simp [dataBodyString, hjd, hjb] at hd
          | null => simp [dataBodyString, hjd] at hd
          | bool b => simp [dataBodyString, hjd] at hd
          | num n => simp [dataBodyString, hjd] at hd
          | str t => simp [dataBodyString, hjd] at hd
    simp only [processRecord, Record.GetType]
    rw [if_pos (by decide : ("sebak-error" : String) ≠ "payment")]
    rw [hnc]
  · intro c hc
    rcases hjd : jlookup raw "data" with _ | v
    · simp [extractNestedCode, hjd] at hc
    · cases v with
      | obj dm =>
        rcases hjb : jlookup dm "body" with _ | w
        · simp [extractNestedCode, hjd, hjb] at hc
        · cases w with
          | str j =>
            rcases hpj : pJ j with _ | b
            · simp [extractNestedCode, hjd, hjb, hpj, jlookup_nil] at hc
            · cases b with
              | obj fs =>
                rcases hcc : jlookup fs "code" with _ | u
                · simp [extractNestedCode, hjd, hjb, hpj, hcc] at hc
                · cases u with
                  | num n =>
                    simp [extractNestedCode, hjd, hjb, hpj, hcc] at hc
                    exact ⟨dm, j, fs, rfl, hjb, hpj, by rw [hcc, hc]⟩
                  | null => simp [extractNestedCode, hjd, hjb, hpj, hcc] at hc
                  | bool x => simp [extractNestedCode, hjd, hjb, hpj, hcc] at hc
                  | str t => simp [extractNestedCode, hjd, hjb, hpj, hcc] at hc
                  | obj o => simp [extractNestedCode, hjd, hjb, hpj, hcc] at hc
              | null => simp [extractNestedCode, hjd, hjb, hpj, jlookup_nil] at hc
              | bool x => simp [extractNestedCode, hjd, hjb, hpj, jlookup_nil] at hc
              | num n => simp [extractNestedCode, hjd, hjb, hpj, jlookup_nil] at hc
              | str t => simp [extractNestedCode, hjd, hjb, hpj, jlookup_nil] at hc
          | null => simp [extractNestedCode, hjd, hjb] at hc
          | bool x => simp [extractNestedCode, hjd, hjb] at hc
          | num n => simp [extractNestedCode, hjd, hjb] at hc
          | obj o => simp [extractNestedCode, hjd, hjb] at hc
      | null => simp [extractNestedCode, hjd] at hc
      | bool x => simp [extractNestedCode, hjd] at hc
      | num n => simp [extractNestedCode, hjd] at hc
      | str t => simp [extractNestedCode, hjd] at hc

/-- C1 witness: the three best-effort cases at concrete inputs — raw error
without `data`; `data.body` present but not valid JSON; embedded JSON
object without `code`. -/
theorem c1_nested_extraction_best_effort_witness :
    processRecord pJ0 (.sebakError f0 []) st0 = .ok st0
    ∧ processRecord pJ0
        (.sebakError f0 [("data", .obj [("body", .str "bogus")])]) st0 = .ok st0
    ∧ processRecord pJC
        (.sebakError f0 [("data", .obj [("body", .str "nocode")])]) st0 = .ok st0 :=
  ⟨(c1_nested_extraction_best_effort pJ0 f0 [] st0 (Or.inl rfl)).1,
   (c1_nested_extraction_best_effort pJ0 f0
      [("data", .obj [("body", .str "bogus")])] st0
      (Or.inr (Or.inl ⟨"bogus", rfl, rfl⟩))).1,
   (c1_nested_extraction_best_effort pJC f0
      [("data", .obj [("body", .str "nocode")])] st0
      (Or.inr (Or.inr ⟨"nocode", [], rfl, rfl, rfl⟩))).1⟩

/-! C2. -/

/-- Log lines with an error-carrying create-accounts record and one
error-free payment. -/
def c2lines : List (Option Json) := [configLine, caErrLine, paymentLine 0]

/-- C2 counterexample: a create-accounts record carrying an error of type
`timeout` decodes successfully and is ingested, yet the final
`error_type_counts` is empty — no entry is incremented for an
error-carrying record whose type is not `payment`, refuting the claim
that the error taxonomy covers error records of any kind. -/
theorem c2_counterexample :
    (loadLine pIA caErrLine).1 = .ok (some (.createAccounts fErrCA))
    ∧ ((Record.createAccounts fErrCA).GetError).isSome = true
    ∧ (Record.createAccounts fErrCA).GetErrorType = "timeout"
    ∧ ((runResult pIA pJ0 c2lines).statsOf.map Stats.errorTypes) = some []
    ∧ (runResult pIA pJ0 c2lines).recordCountOf = some 1 :=
  ⟨rfl, rfl, rfl, rfl, rfl⟩

/-- C2 as amended: the error taxonomy is restricted to payment records.
The scan loop retains exactly the payment records, and the aggregation
loop — which runs over the retained payment records only — bumps
`error_type_counts` at a record's error type exactly when that record
carries an error. -/
theorem c2_error_taxonomy_payment_only (pJ : String → Option Json)
    (r : Record) (st st' : LoopState) (s : Stats)
    (h : processRecord pJ r st = .ok st') :
    st'.records = st.records ++ (if r.GetType = "payment" then [r] else [])
    ∧ (statsStep s r).errorTypes =
        (if (r.GetError).isSome then bump s.errorTypes r.GetErrorType
         else s.errorTypes) := by
  refine ⟨processRecord_ok_records pJ r st st' h, ?_⟩
  cases hE : r.GetError <;> simp [statsStep, hE]

/-- C2 amended-claim witness: an error-carrying payment record at the
empty loop state and empty statistics. -/
theorem c2_error_taxonomy_payment_only_witness :
    (⟨[Record.payment fErr], []⟩ : LoopState).records =
      st0.records ++ (if (Record.payment fErr).GetType = "payment"
        then [Record.payment fErr] else [])
    ∧ (statsStep emptyStats (Record.payment fErr)).errorTypes =
        (if ((Record.payment fErr).GetError).isSome
         then bump emptyStats.errorTypes (Record.payment fErr).GetErrorType
         else emptyStats.errorTypes) :=
  c2_error_taxonomy_payment_only pJ0 (Record.payment fErr) st0
    ⟨[Record.payment fErr], []⟩ emptyStats rfl

/-! C3 helper lemmas: association-list counters, the fill loop, and the
bucket-key invariant of the aggregation loop. -/

/-- Unfolding `lookupCount` over a cons cell. -/
theorem lookupCount_cons {α : Type} [BEq α] (p : α × Nat)
    (m : List (α × Nat)) (k : α) :
    lookupCount (p :: m) k =
      if p.1 == k then some p.2 else lookupCount m k := by
  by_cases h : (p.1 == k) = true
  · rw [lookupCount, @List.find?_cons_of_pos _ (fun q => q.1 == k) p m h,
      if_pos h]
    rfl
  · rw [lookupCount, @List.find?_cons_of_neg _ (fun q => q.1 == k) p m h,
      if_neg h]
    rfl

/-- The `any` membership test used by `bump` and `fillEls` agrees with
`lookupCount`. -/
theorem any_beq_eq_isSome {α : Type} [BEq α] (m : List (α × Nat)) (k : α) :
    m.any (fun p => p.1 == k) = (lookupCount m k).isSome := by
  induction m with
  | nil => rfl
  | cons p m ih =>
    rw [List.any_cons, lookupCount_cons]
    cases hb : (p.1 == k) <;> simp [hb, ih]

/-- A key present on the left of an append is found there. -/
theorem lookupCount_append_left {α : Type} [BEq α] (m l : List (α × Nat))
    (k : α) (v : Nat) (h : lookupCount m k = some v) :
    lookupCount (m ++ l) k = some v := by
  induction m with
  | nil => simp [lookupCount] at h
  | cons p m ih =>
    rw [List.cons_append, lookupCount_cons]
    rw [lookupCount_cons] at h
    by_cases hb : (p.1 == k) = true
    · rw [if_pos hb] at h ⊢; exact h
    · rw [if_neg hb] at h ⊢; exact ih h

/-- A key absent on the left of an append is looked up on the right. -/
theorem lookupCount_append_right {α : Type} [BEq α] (m l : List (α × Nat))
    (k : α) (h : lookupCount m k = Option.none) :
    lookupCount (m ++ l) k = lookupCount l k := by
  induction m with
  | nil => rfl
  | cons p m ih =>
    rw [List.cons_append, lookupCount_cons]
    rw [lookupCount_cons] at h
    by_cases hb : (p.1 == k) = true
    · rw [if_pos hb] at h; cases h
    · rw [if_neg hb] at h ⊢; exact ih h

/-- A successful lookup exhibits an entry with the looked-up key. -/
theorem lookupCount_isSome_mem {α : Type} [BEq α] [LawfulBEq α]
    (m : List (α × Nat)) (k : α)
    (h : (lookupCount m k).isSome = true) : ∃ q ∈ m, q.1 = k := by
  unfold lookupCount at h
  rcases hf : m.find? (fun p => p.1 == k) with _ | q
  · rw [hf] at h; cases h
  · have hq : (q.1 == k) = true :=
      @List.find?_some _ (fun p => p.1 == k) q m hf
    exact ⟨q, List.mem_of_find?_eq_some hf, eq_of_beq hq⟩

/-- Every key of `bump m k` satisfies any property satisfied by the keys
of `m` and by `k`. -/
theorem bump_keys_subset {α : Type} [BEq α] (P : α → Prop)
    (m : List (α × Nat)) (k : α) (hm : ∀ q ∈ m, P q.1) (hk : P k) :
    ∀ q ∈ bump m k, P q.1 := by
  intro q hq
  unfold bump at hq
  split at hq
  · obtain ⟨p, hp, hqe⟩ := List.mem_map.mp hq
    by_cases hb : (p.1 == k) = true
    · rw [if_pos hb] at hqe; rw [← hqe]; exact hm p hp
    · rw [if_neg hb] at hqe; rw [← hqe]; exact hm p hp
  · rcases List.mem_append.mp hq with h | h
    · exact hm q h
    · rw [List.mem_singleton.mp h]; exact hk

/-- Both branches of the aggregation step bucket the record's elapsed time
into `floor(elapsed / step) * step`. -/
theorem statsStep_els (s : Stats) (r : Record) :
    (statsStep s r).els = bump s.els (r.GetElapsed / step * step) := by
  cases hE : r.GetError <;> simp [statsStep, hE]

/-- Both branches of the aggregation step update the running maximum. -/
theorem statsStep_maxElapsed (s : Stats) (r : Record) :
    (statsStep s r).maxElapsed = max s.maxElapsed r.GetElapsed := by
  cases hE : r.GetError <;> simp [statsStep, hE]

/-- Invariant of the aggregation loop: every histogram key is a multiple
of `step` and at most the running maximum elapsed time. -/
theorem foldl_statsStep_els_keys (records : List Record) :
    ∀ (s : Stats), (∀ q ∈ s.els, step ∣ q.1 ∧ q.1 ≤ s.maxElapsed) →
    ∀ q ∈ (records.foldl statsStep s).els,
      step ∣ q.1 ∧ q.1 ≤ (records.foldl statsStep s).maxElapsed := by
  induction records with
  | nil => intro s hs; simpa using hs
  | cons r rest ih =>
    intro s hs
    rw [List.foldl_cons]
    apply ih
    intro q hq
    rw [statsStep_els] at hq
    rw [statsStep_maxElapsed]
    refine bump_keys_subset
      (fun x => step ∣ x ∧ x ≤ max s.maxElapsed r.GetElapsed)
      s.els _ ?_ ?_ q hq
    · exact fun p hp => ⟨(hs p hp).1, le_trans (hs p hp).2 (le_max_left _ _)⟩
    · exact ⟨dvd_mul_left step _,
        le_trans (Nat.div_mul_le_self _ _) (le_max_right _ _)⟩

/-- Every histogram key produced by the aggregation loop is a multiple of
`step` bounded by the final maximum elapsed time. -/
theorem computeStats_els_keys (records : List Record) :
    ∀ q ∈ (computeStats records).els,
      step ∣ q.1 ∧ q.1 ≤ (computeStats records).maxElapsed := by
  apply foldl_statsStep_els_keys
  intro q hq
  simp at hq

/-- Prepending the start point to a shifted arithmetic range extends the
range by one. -/
theorem range_map_shift (i c stepN : Nat) :
    i :: (List.range c).map (fun t => (i + stepN) + t * stepN)
      = (List.range (c + 1)).map (fun t => i + t * stepN) := by
  rw [List.range_succ_eq_map]
  simp only [List.map_cons, List.map_map, Nat.zero_mul, Nat.add_zero]
  refine congrArg (fun l => i :: l) ?_
  refine congrArg (fun f => List.map f (List.range _)) ?_
  funext t
  simp [Function.comp, Nat.succ_eq_add_one]
  ring

/-- The iteration count of the fill loop decreases by one across a
productive iteration. -/
theorem fill_count_succ (i bound : Nat) (hib : i < bound) :
    (bound - i + step - 1) / step
      = (bound - (i + step) + step - 1) / step + 1 := by
  simp only [step]
  omega

/-- The iteration count of the fill loop is zero once the bound is
reached. -/
theorem fill_count_zero (i bound : Nat) (hib : ¬ i < bound) :
    (bound - i + step - 1) / step = 0 := by
  simp only [step]
  omega

/-- The fill loop, given enough fuel, visits exactly the ascending
multiples of `step` from `i` up to (excluding) `bound`. -/
theorem fillLoop_eq : ∀ (fuel i bound : Nat),
    (bound - i + step - 1) / step ≤ fuel →
    fillLoop fuel i bound =
      (List.range ((bound - i + step - 1) / step)).map
        (fun t => i + t * step) := by
  intro fuel
  induction fuel with
  | zero =>
    intro i bound hc
    have h0 : (bound - i + step - 1) / step = 0 := Nat.le_zero.mp hc
    rw [h0]
    simp [fillLoop]
  | succ fuel ih =>
    intro i bound hc
    by_cases hib : i < bound
    · have hc' : (bound - (i + step) + step - 1) / step ≤ fuel := by
        rw [fill_count_succ i bound hib] at hc
        exact Nat.le_of_succ_le_succ hc
      rw [fillLoop, if_pos hib, ih (i + step) bound hc',
        fill_count_succ i bound hib]
      exact range_map_shift i _ step
    · rw [fill_count_zero i bound hib, fillLoop, if_neg hib]
      simp

/-- The bucket key list produced by the fill loop on `bound =
maxElapsed + step`: the ascending multiples of `step` strictly below
`bound`. -/
theorem fillKeys_eq (bound : Nat) :
    fillKeys bound =
      (List.range ((bound + step - 1) / step)).map (fun t => t * step) := by
  unfold fillKeys
  rw [fillLoop_eq (bound / step + 1) 0 bound (by simp only [step]; omega)]
  simp only [Nat.sub_zero, Nat.zero_add]

/-- Unfolding `fillEls` over a cons cell of keys. -/
theorem fillEls_cons (m : List (Nat × Nat)) (k0 : Nat) (ks : List Nat) :
    fillEls m (k0 :: ks) =
      fillEls (if m.any (fun p => p.1 == k0) then m else m ++ [(k0, 0)]) ks := by
  simp [fillEls]

/-- Zero-filling never disturbs an existing counter. -/
theorem fillEls_lookup_preserved (ks : List Nat) :
    ∀ (m : List (Nat × Nat)) (k v : Nat), lookupCount m k = some v →
    lookupCount (fillEls m ks) k = some v := by
  induction ks with
  | nil => intro m k v h; simpa [fillEls] using h
  | cons k0 ks ih =>
    intro m k v h
    rw [fillEls_cons]
    split
    · exact ih m k v h
    · exact ih _ k v (lookupCount_append_left m _ k v h)

/-- After zero-filling, every visited key holds its original count, with
an explicit zero when it was absent. -/
theorem fillEls_lookup_mem (ks : List Nat) :
    ∀ (m : List (Nat × Nat)) (k : Nat), k ∈ ks →
    lookupCount (fillEls m ks) k = some ((lookupCount m k).getD 0) := by
  induction ks with
  | nil => intro m k hk; cases hk
  | cons k0 ks ih =>
    intro m k hk
    rw [fillEls_cons]
    rcases List.mem_cons.mp hk with rfl | hk'
    · rcases hm : lookupCount m k with _ | v
      · have hany : (m.any (fun p => p.1 == k)) = false := by
          rw [any_beq_eq_isSome, hm]; rfl
        rw [if_neg (by simp [hany])]
        have happ : lookupCount (m ++ [(k, 0)]) k = some 0 := by
          rw [lookupCount_append_right m _ k hm, lookupCount_cons]
          simp
        rw [fillEls_lookup_preserved ks _ k 0 happ]
        rfl
      · have hany : (m.any (fun p => p.1 == k)) = true := by
          rw [any_beq_eq_isSome, hm]; rfl
        rw [if_pos hany, fillEls_lookup_preserved ks m k v hm]
        rfl
    · rw [ih _ k hk']
      split
      · rfl
      · rcases hm : lookupCount m k with _ | v
        · rw [lookupCount_append_right m _ k hm, lookupCount_cons]
          by_cases hb : (k0 == k) = true
          · rw [if_pos hb]; rfl
          · rw [if_neg hb]; rfl
        · rw [lookupCount_append_left m _ k v hm]

/-- A key holding a counter after zero-filling either held one before or
was one of the visited keys. -/
theorem fillEls_lookup_some_sources (ks : List Nat) :
    ∀ (m : List (Nat × Nat)) (k v : Nat),
    lookupCount (fillEls m ks) k = some v →
    (lookupCount m k).isSome = true ∨ k ∈ ks := by
  induction ks with
  | nil =>
    intro m k v h
    simp only [fillEls, List.foldl_nil] at h
    exact Or.inl (by rw [h]; rfl)
  | cons k0 ks ih =>
    intro m k v h
    rw [fillEls_cons] at h
    rcases ih _ k v h with hm | hks
    · by_cases hany : (m.any (fun p => p.1 == k0)) = true
      · rw [if_pos hany] at hm; exact Or.inl hm
      · rw [if_neg hany] at hm
        rcases hmk : lookupCount m k with _ | w
        · rw [lookupCount_append_right m _ k hmk, lookupCount_cons] at hm
          by_cases hb : (k0 == k) = true
          · exact Or.inr (List.mem_cons.mpr (Or.inl (eq_of_beq hb).symm))
          · rw [if_neg hb] at hm
            simp [lookupCount] at hm
        · exact Or.inl rfl
    · exact Or.inr (List.mem_cons_of_mem _ hks)

/-! C3. -/

/-- The retained payment records of the C3 counterexample: one payment
with elapsed 10e9 nanoseconds. -/
def c3recs : List Record :=
  [Record.payment
    { time := 0, elapsed := 10000000000, error := Option.none,
      errorType := "" }]

/-- C3 counterexample: a single payment with elapsed 10e9 ns has
`max_elapsed = 10e9`, whose bucket is `floor(10e9/step)*step = 0`; the
claim therefore demands the key set `[0]`, but the fill loop produces
`[0, 50000000000]` — the bucket 50000000000 lies beyond the bucket of
`max_elapsed` (and beyond `max_elapsed` itself), with an explicit zero
entry. -/
theorem c3_counterexample :
    (runResult pIA pJ0 [configLine, paymentLine 10000000000]).statsOf.map
        Stats.maxElapsed = some 10000000000
    ∧ 10000000000 / step * step = 0
    ∧ (runResult pIA pJ0 [configLine, paymentLine 10000000000]).keysOf
        = some [0, 50000000000]
    ∧ (runResult pIA pJ0 [configLine, paymentLine 10000000000]).elsOf
        = some [(0, 1), (50000000000, 0)] :=
  ⟨rfl, rfl, rfl, rfl⟩

/-- C3 as amended: after finalization, for every payment stream with at
least one record, the bucket key list is exactly the contiguous ascending
sequence `0, step, ..., K*step` with `K = (max_elapsed + step - 1) / step`
(integer division) — that is, it ends at `ceil(max_elapsed/step)*step`,
which is one bucket beyond `floor(max_elapsed/step)*step` whenever `step`
does not divide `max_elapsed` — every key of the key list is present in
the filled histogram with its original count, absent buckets filled with
an explicit zero, and the filled histogram holds no key outside the key
list. -/
theorem c3_histogram_dense_after_fill (records : List Record)
    (hne : records ≠ []) :
    fillKeys ((computeStats records).maxElapsed + step)
      = (List.range (((computeStats records).maxElapsed + step - 1) / step
          + 1)).map (fun t => t * step)
    ∧ List.Sorted (· < ·)
        (fillKeys ((computeStats records).maxElapsed + step))
    ∧ (∀ k ∈ fillKeys ((computeStats records).maxElapsed + step),
        lookupCount
          (fillEls (computeStats records).els
            (fillKeys ((computeStats records).maxElapsed + step))) k
        = some ((lookupCount (computeStats records).els k).getD 0))
    ∧ (∀ k v, lookupCount
          (fillEls (computeStats records).els
            (fillKeys ((computeStats records).maxElapsed + step))) k
          = some v →
        k ∈ fillKeys ((computeStats records).maxElapsed + step)) := by
  have hkeys : fillKeys ((computeStats records).maxElapsed + step)
      = (List.range (((computeStats records).maxElapsed + step - 1) / step
          + 1)).map (fun t => t * step) := by
    rw [fillKeys_eq]
    refine congrArg (fun n => (List.range n).map (fun t => t * step)) ?_
    simp only [step]
    omega
  refine ⟨hkeys, ?_, ?_, ?_⟩
  · rw [hkeys]
    refine List.Pairwise.map _ ?_ (List.pairwise_lt_range _)
    intro a b hab
    have hstep : 0 < step := by simp only [step]; omega
    exact (Nat.mul_lt_mul_right hstep).mpr hab
  · exact fun k hk => fillEls_lookup_mem _ _ k hk
  · intro k v h
    rcases fillEls_lookup_some_sources _ _ k v h with hsome | hmem
    · obtain ⟨q, hqmem, hqk⟩ := lookupCount_isSome_mem _ k hsome
      obtain ⟨hdvd, hle⟩ := computeStats_els_keys records q hqmem
      rw [hqk] at hdvd hle
      obtain ⟨t, rfl⟩ := hdvd
      rw [hkeys]
      refine List.mem_map.mpr ⟨t, List.mem_range.mpr ?_, (mul_comm t step)⟩
      have hstep : 0 < step := by simp only [step]; omega
      have ht : t ≤ (computeStats records).maxElapsed / step :=
        (Nat.le_div_iff_mul_le hstep).mpr (by rw [mul_comm]; exact hle)
      have hdd : (computeStats records).maxElapsed / step
          ≤ ((computeStats records).maxElapsed + step - 1) / step :=
        Nat.div_le_div_right (by simp only [step]; omega)
      omega
    · exact hmem

/-- C3 amended-claim witness: the single-payment stream with elapsed
10e9 ns. -/
theorem c3_histogram_dense_after_fill_witness :
    c3recs ≠ []
    ∧ (fillKeys ((computeStats c3recs).maxElapsed + step)
        = (List.range (((computeStats c3recs).maxElapsed + step - 1) / step
            + 1)).map (fun t => t * step)
      ∧ List.Sorted (· < ·)
          (fillKeys ((computeStats c3recs).maxElapsed + step))
      ∧ (∀ k ∈ fillKeys ((computeStats c3recs).maxElapsed + step),
          lookupCount
            (fillEls (computeStats c3recs).els
              (fillKeys ((computeStats c3recs).maxElapsed + step))) k
          = some ((lookupCount (computeStats c3recs).els k).getD 0))
      ∧ (∀ k v, lookupCount
            (fillEls (computeStats c3recs).els
              (fillKeys ((computeStats c3recs).maxElapsed + step))) k
            = some v →
          k ∈ fillKeys ((computeStats c3recs).maxElapsed + step))) :=
  ⟨List.cons_ne_nil _ _,
   c3_histogram_dense_after_fill c3recs (List.cons_ne_nil _ _)⟩

/-! C4. -/

/-- C4: ingesting a record whose type is not `payment` leaves the retained
record list — and with it the total record count and every histogram
bucket count computed from it — unchanged. -/
theorem c4_nonpayment_frame (pJ : String → Option Json) (r : Record)
    (st st' : LoopState) (hnp : r.GetType ≠ "payment")
    (h : processRecord pJ r st = .ok st') :
    st'.records = st.records
    ∧ st'.records.length = st.records.length
    ∧ (computeStats st'.records).els = (computeStats st.records).els := by
  have hr := processRecord_ok_records pJ r st st' h
  rw [if_neg hnp, List.append_nil] at hr
  exact ⟨hr, by rw [hr], by rw [hr]⟩

/-- C4 witness: a create-accounts record (with an error, exercising the
non-trivial branch) at the empty loop state. -/
theorem c4_nonpayment_frame_witness :
    st0.records = st0.records
    ∧ st0.records.length = st0.records.length
    ∧ (computeStats st0.records).els = (computeStats st0.records).els :=
  c4_nonpayment_frame pJ0 (Record.createAccounts fErr) st0 st0
    (by decide) rfl

/-! C5. -/

/-- The record fields `sebakNoBodyLine` decodes to. -/
def fSebakNB : RecordFields :=
  { time := 0, elapsed := 0, error := some (.obj [("data", .obj [])]),
    errorType := "" }

/-- Log lines that all decode successfully, contain zero payment records,
and contain a sebak-error record whose extraction panics. -/
def c5lines : List (Option Json) := [configLine, sebakNoBodyLine]

/-- C5 counterexample: a log whose head config line and whose single
sebak-error line both decode successfully and which contains zero payment
records, yet `runResult` panics (on the `["body"].(string)` type
assertion, the raw error having `data` but no `body`) instead of printing
"no records found" and exiting with status 1. -/
theorem c5_counterexample :
    isConfigLoad (loadLine pIA configLine).1 = true
    ∧ (loadLine pIA sebakNoBodyLine).1 =
        .ok (some (.sebakError fSebakNB [("data", .obj [])]))
    ∧ (Record.sebakError fSebakNB [("data", .obj [])]).GetType ≠ "payment"
    ∧ runResult pIA pJ0 c5lines = .panicked :=
  ⟨rfl, rfl, by decide, rfl⟩

/-- Processing a non-payment record whose nested extraction does not panic
succeeds and retains no new record. -/
theorem processRecord_nonpayment_safe (pJ : String → Option Json)
    (r : Record) (st : LoopState) (hnp : r.GetType ≠ "payment")
    (hx : ∀ f raw, r = .sebakError f raw →
      extractNestedCode pJ raw ≠ .panicked) :
    ∃ st', processRecord pJ r st = .ok st' ∧ st'.records = st.records := by
  cases r with
  | config c => exact ⟨st, by simp [processRecord, Record.GetType], rfl⟩
  | createAccounts f => exact ⟨st, by simp [processRecord, Record.GetType], rfl⟩
  | payment f => exact absurd rfl hnp
  | sebakError f raw =>
    rcases hxx : extractNestedCode pJ raw with _ | c | _
    · exact ⟨st, by simp [processRecord, Record.GetType, hxx], rfl⟩
    · exact ⟨{ st with sebakErrors := bump st.sebakErrors c },
        by simp [processRecord, Record.GetType, hxx], rfl⟩
    · exact absurd hxx (hx f raw rfl)

/-- The scan loop over lines that load successfully, are not payments and
cannot hit the extraction panic completes without abort and retains no
record. -/
theorem runLoop_safe_no_records (pI : String → Option Int)
    (pJ : String → Option Json) (rest : List (Option Json)) :
    ∀ (b : Boundaries) (st : LoopState),
    rest.all (lineSafeNonPayment pI pJ) = true →
    ∃ b' st', runLoop pI pJ rest b st = .ok (b', st')
      ∧ st'.records = st.records := by
  induction rest with
  | nil => exact fun b st _ => ⟨b, st, rfl, rfl⟩
  | cons l rest ih =>
    intro b st hall
    rw [List.all_cons, Bool.and_eq_true] at hall
    obtain ⟨hsafe, hrest⟩ := hall
    unfold lineSafeNonPayment at hsafe
    rcases hld : loadLine pI l with ⟨ld, u⟩
    rw [hld] at hsafe
    cases ld with
    | err => simp at hsafe
    | panicked => simp at hsafe
    | ok r =>
      cases r with
      | none =>
        obtain ⟨b', st', hloop, hrec⟩ := ih (applyUpdate b u) st hrest
        exact ⟨b', st', by simp only [runLoop, hld]; exact hloop, hrec⟩
      | some rec =>
        simp only at hsafe
        by_cases hp : rec.GetType = "payment"
        · rw [if_pos hp] at hsafe; cases hsafe
        · rw [if_neg hp] at hsafe
          have hx : ∀ f raw, rec = .sebakError f raw →
              extractNestedCode pJ raw ≠ .panicked := by
            intro f raw hr hpx
            subst hr
            simp [hpx] at hsafe
          obtain ⟨st'', hpr, hrec⟩ :=
            processRecord_nonpayment_safe pJ rec st hp hx
          obtain ⟨b', st', hloop, hrec'⟩ := ih (applyUpdate b u) st'' hrest
          refine ⟨b', st', ?_, by rw [hrec', hrec]⟩
          simp only [runLoop, hld, hpr]
          exact hloop

/-- C5 as amended: for every input log whose head line decodes into a
config record and whose remaining lines all decode successfully, contain
zero payment records, and contain no sebak-error record whose raw error
triggers the nested-extraction panic (its raw error either has no `data`
key, or `data` is an object with a string `body` whose embedded `code`,
if present, is numeric), the program prints "no records found", exits
with status 1, and emits no report table. -/
theorem c5_no_payments_exits_one (pI : String → Option Int)
    (pJ : String → Option Json) (first : Option Json)
    (rest : List (Option Json)) (cfg : HotterConfig) (u : BoundaryUpdate)
    (hcfg : loadLine pI first = (.ok (some (.config cfg)), u))
    (hsafe : rest.all (lineSafeNonPayment pI pJ) = true) :
    runResult pI pJ (first :: rest) = .noRecords := by
  obtain ⟨b', st', hloop, hrec⟩ :=
    runLoop_safe_no_records pI pJ rest (applyUpdate ⟨0, 0⟩ u) ⟨[], []⟩ hsafe
  unfold runResult
  simp only [List.head?_cons, Option.getD_some, List.tail_cons]
  rw [hcfg]
  simp only [hloop, hrec]
  rfl

/-- C5 amended-claim witness: a config head line followed by a `started`
control line and an error-carrying create-accounts line — all loading
successfully, none a payment. -/
theorem c5_no_payments_exits_one_witness :
    loadLine pIA configLine = (.ok (some (.config ⟨2⟩)), .keep)
    ∧ [startedLine, caErrLine].all (lineSafeNonPayment pIA pJ0) = true
    ∧ runResult pIA pJ0 (configLine :: [startedLine, caErrLine]) = .noRecords :=
  ⟨rfl, rfl,
   c5_no_payments_exits_one pIA pJ0 configLine [startedLine, caErrLine]
     ⟨2⟩ .keep rfl rfl⟩

/-! C6. -/

/-- Log lines with no `started` control line and a single payment whose
`time` field is absent (hence the zero timestamp). -/
def c6lines : List (Option Json) := [configLine, paymentLine 0]

/-- C6 counterexample: on a log that never emits a `started` line and
whose single payment record carries the zero timestamp, the report is
built with `lastTime = started = 0`, the elapsed-time denominator is zero,
and both OPS divisions are performed with a zero divisor (Go float64
semantics produce a non-finite value, modelled `Option.none`) — the
computation is not guarded. -/
theorem c6_counterexample :
    (runResult pIA pJ0 c6lines).opsOf = some (reportOPS 2 1 0 0 0)
    ∧ reportOPS 2 1 0 0 0 = (Option.none, Option.none) := by
  refine ⟨rfl, ?_⟩
  simp [reportOPS, goDivQ, totalSecondsQ]

/-- C6 as amended: the expected-OPS and real-OPS computations are not
guarded: the divisions are performed unconditionally, and they divide by
zero exactly when the last payment timestamp equals `started` (in
particular when the log emits no `started` line and the last payment
carries the zero timestamp); a missing `started` line with a nonzero last
payment timestamp yields a meaningless but nonzero denominator. -/
theorem c6_ops_division_unguarded (cfgOps : Int) (n countErr : Nat)
    (lastTime started : Int) :
    ((reportOPS cfgOps n countErr lastTime started).1 = Option.none
      ↔ lastTime = started)
    ∧ ((reportOPS cfgOps n countErr lastTime started).2 = Option.none
      ↔ lastTime = started) := by
  have htot : totalSecondsQ lastTime started = 0 ↔ lastTime = started := by
    unfold totalSecondsQ
    rw [div_eq_zero_iff]
    simp [sub_eq_zero]
  constructor <;>
  · simp only [reportOPS, goDivQ]
    by_cases hb : totalSecondsQ lastTime started = 0
    · simp only [if_pos hb]
      simpa using htot.mp hb
    · simp only [if_neg hb]
      simp only [reduceCtorEq, false_iff]
      exact fun hls => hb (htot.mpr hls)

/-! C7. -/

/-- C7: a `started` or `ended` control line whose `time` field is a string
that the ISO-8601 parser rejects still loads successfully — no decode
error, no panic — and the corresponding run boundary is assigned the zero
timestamp. -/
theorem c7_timestamp_parse_failure_tolerated (pI : String → Option Int)
    (d : List (String × Json)) (s : String)
    (hts : jlookup d "time" = some (Json.str s))
    (hp : pI s = Option.none) :
    (jlookup d "type" = some (Json.str "started") →
      loadLine pI (some (Json.obj d)) = (.ok Option.none, .setStarted 0))
    ∧ (jlookup d "type" = some (Json.str "ended") →
      loadLine pI (some (Json.obj d)) = (.ok Option.none, .setEnded 0)) := by
  constructor <;> intro hty <;> simp [loadLine, hty, hts, hp]

/-- C7 witness: concrete `started` and `ended` lines whose `time` string
is rejected by a parser that accepts nothing. -/
theorem c7_timestamp_parse_failure_tolerated_witness :
    loadLine (fun _ => Option.none)
      (some (.obj [("type", .str "started"), ("time", .str "bogus")]))
      = (.ok Option.none, .setStarted 0)
    ∧ loadLine (fun _ => Option.none)
      (some (.obj [("type", .str "ended"), ("time", .str "bogus")]))
      = (.ok Option.none, .setEnded 0) :=
  ⟨(c7_timestamp_parse_failure_tolerated (fun _ => Option.none)
      [("type", .str "started"), ("time", .str "bogus")] "bogus" rfl rfl).1 rfl,
   (c7_timestamp_parse_failure_tolerated (fun _ => Option.none)
      [("type", .str "ended"), ("time", .str "bogus")] "bogus" rfl rfl).2 rfl⟩

/-! C8. -/

/-- C8: the histogram bucket of every aggregated record is
`floor(elapsed / step) * step` with `step = 50000000000` nanoseconds
(50 seconds); concretely, scenario A — three error-free payments with
elapsed 10e9, 60e9 and 120e9 nanoseconds — yields exactly the three
populated buckets 0 (0-50s), 50000000000 (50-100s) and 100000000000
(100-150s), a total record count of 3 and zero errors (error rate 0). -/
theorem c8_bucket_and_scenario_a :
    step = 50000000000
    ∧ (∀ (s : Stats) (r : Record),
        (statsStep s r).els = bump s.els (r.GetElapsed / step * step))
    ∧ (runResult pIA pJ0 scenarioA).statsOf =
        some { els := [(0, 1), (50000000000, 1), (100000000000, 1)],
               countError := 0, errorTypes := [], maxElapsed := 120000000000,
               minElapsed := some 10000000000 }
    ∧ (runResult pIA pJ0 scenarioA).recordCountOf = some 3 := by
  refine ⟨rfl, ?_, rfl, rfl⟩
  intro s r
  cases hE : r.GetError <;> simp [statsStep, hE]

/-! C9. -/

/-- C9: whenever the head line of the input does not load as a config
record — the line is absent (the empty line fails the generic JSON
parse), malformed, or decodes to anything other than a config record —
`runResult` terminates before any aggregation, either through the
`printError` fatal abort or through the Go panic of the
`record.(hotbody.HotterConfig)` type assertion; in both outcomes no
report is produced and the process exit status is non-zero. -/
theorem c9_head_line_must_be_config (pI : String → Option Int)
    (pJ : String → Option Json) (lines : List (Option Json))
    (h : isConfigLoad (loadLine pI (lines.head?.getD Option.none)).1 = false) :
    runResult pI pJ lines = .fatal ∨ runResult pI pJ lines = .panicked := by
  unfold runResult
  rcases hl : loadLine pI (lines.head?.getD Option.none) with ⟨ld, u⟩
  rw [hl] at h
  cases ld with
  | err => exact Or.inl rfl
  | panicked => exact Or.inr rfl
  | ok r =>
    cases r with
    | none => exact Or.inr rfl
    | some rec =>
      cases rec with
      | config c => simp [isConfigLoad] at h
      | createAccounts f => exact Or.inr rfl
      | payment f => exact Or.inr rfl
      | sebakError f raw => exact Or.inr rfl

/-- C9 witness: a log whose head line is a well-formed payment record
(not a config record). -/
theorem c9_head_line_must_be_config_witness :
    isConfigLoad (loadLine pIA ([paymentLine 0].head?.getD Option.none)).1 = false
    ∧ (runResult pIA pJ0 [paymentLine 0] = .fatal
        ∨ runResult pIA pJ0 [paymentLine 0] = .panicked) :=
  ⟨rfl, c9_head_line_must_be_config pIA pJ0 [paymentLine 0] rfl⟩

/-! C10. -/

/-- C10: a valid JSON object line whose `type` field is not a string
(here the number 1), and a `started`/`ended` line whose `time` field is
missing or not a string, make `loadLine` hit a failed Go type assertion —
a runtime panic — rather than return a decode error. -/
theorem c10_type_assertion_panics (pI : String → Option Int) :
    loadLine pI (some (.obj [("type", .num 1)])) = (.panicked, .keep)
    ∧ loadLine pI (some (.obj [("type", .str "started")])) = (.panicked, .keep)
    ∧ loadLine pI (some (.obj [("type", .str "started"), ("time", .num 5)]))
        = (.panicked, .keep)
    ∧ loadLine pI (some (.obj [("type", .str "ended")])) = (.panicked, .keep) :=
  ⟨rfl, rfl, rfl, rfl⟩

end HotBody
